import Mathlib

/-!
# Verification of the deep-research recursive orchestration engine

Shallow embedding of `src/core/research/engine.ts` (the research orchestrator
used by the REST API service), of its helpers `generateSerpQueries` and
`processSerpResult`, and of the prompt-trimming utility `trimPrompt` from the
AI provider module.

Modelling conventions:

* The external collaborators (query planner LM call, Firecrawl search,
  learning-extractor LM call, prompt trimmer used inside
  `processSerpResult`) are oracles collected in an `Env` structure.  A
  fallible collaborator returns `Except`: `Except.error` models a rejected
  promise (a thrown exception).
* JavaScript numbers used as depth/breadth counters are modelled as `Nat`
  (the spec restricts them to non-negative integers); `Math.ceil (b / 2)` on
  a natural number is `(b + 1) / 2`, and `depth - 1` under the guard
  `newDepth > 0` agrees with truncated subtraction.
* The engine runs its branches through `pLimit`/`Promise.all` on a
  single-threaded event loop.  The embedding executes the branches of one
  fan-out sequentially, left to right, each branch running to completion
  (including its recursive subtree) before the next starts: one admissible
  schedule of the cooperative concurrency.  Branch result values are
  schedule independent (no branch reads the shared progress object), so
  result claims are settled faithfully; claims about the order of delivered
  progress snapshots are settled against this admissible schedule.
* Observable actions are collected in an event list: `levelStart` models the
  "=== Starting Deep Research ===" entry of one `deepResearch` activation,
  `searchCall`/`extractCall` model the calls to Firecrawl and to the
  learning-extractor LM, and `progress` models one delivery of the mutable
  progress snapshot to the `onProgress` sink (`reportProgress`).
* Telemetry (Langfuse traces/spans) is omitted: every telemetry interaction
  in the source is either pure metadata or wrapped in its own try/catch, so
  it has no effect on control flow, results, or progress.
-/

/-- `SerpQuery` from `src/interfaces/index.ts`: a planned sub-query. -/
structure SerpQuery where
  query : String
  researchGoal : String
deriving DecidableEq, Repr

/-- One item of a Firecrawl `SearchResponse.data`: optional source URL and
optional scraped markdown content. -/
structure SearchItem where
  url : Option String
  markdown : Option String
deriving DecidableEq, Repr

/-- `SearchProcessingResult` from `src/interfaces/index.ts`. -/
structure SearchProcessingResult where
  learnings : List String
  followUpQuestions : List String
deriving DecidableEq, Repr

/-- `ResearchProgress` from `src/interfaces/index.ts` (the `currentQuery`
field is only ever assigned a plain query string by the engine). -/
structure ResearchProgress where
  currentDepth : Nat
  totalDepth : Nat
  currentBreadth : Nat
  totalBreadth : Nat
  totalQueries : Nat
  completedQueries : Nat
  currentQuery : Option String := none
deriving DecidableEq, Repr

/-- `ResearchResult` as produced by `deepResearch` in
`src/core/research/engine.ts`: learnings, visited URLs and the original
query. -/
structure ResearchResult where
  learnings : List String
  visitedUrls : List String
  query : String
deriving DecidableEq, Repr

/-- A rejected LM generation (`generateObject` throwing, e.g. on
malformed model output). -/
inductive GenError where
  | generation (msg : String)
deriving DecidableEq, Repr

/-- A failed or timed-out Firecrawl search call. -/
inductive FetchError where
  | fetch (msg : String)
  | timeout (msg : String)
deriving DecidableEq, Repr

deriving instance DecidableEq for Except

/-- Observable actions of one engine run (log/telemetry side effects that
carry no control flow are not recorded). -/
inductive Event where
  /-- Entry of one `deepResearch` activation with its parameters
  (the "=== Starting Deep Research ===" log block). -/
  | levelStart (depth breadth : Nat)
  /-- One `firecrawl.search` call issued by a branch. -/
  | searchCall (query : String)
  /-- One learning-extraction `generateObject` call issued by
  `processSerpResult`. -/
  | extractCall (query : String)
  /-- One delivery of a progress snapshot to the `onProgress` sink. -/
  | progress (p : ResearchProgress)
deriving DecidableEq, Repr

/-- The external collaborators of the engine.  `plan` is the LM call inside
`generateSerpQueries` (argument order: query, numQueries, prior learnings),
`search` the Firecrawl call, `extract` the LM call inside
`processSerpResult` (query, contents, numLearnings, numFollowUpQuestions),
and `trim` the provider `trimPrompt` utility applied to each content item. -/
structure Env where
  plan : String → Nat → List String → Except GenError (List SerpQuery)
  search : String → Except FetchError (List SearchItem)
  extract : String → List String → Nat → Nat → Except GenError SearchProcessingResult
  trim : String → Nat → String

/-- lodash `compact` applied to a list of optional strings: drops the falsy
entries, i.e. missing values and empty strings. -/
def compactStrings (l : List (Option String)) : List String :=
  l.filterMap fun o =>
    match o with
    | none => none
    | some s => if s.isEmpty then none else some s

/-- `[...new Set(l)]`: deduplication by exact equality keeping the first
occurrence of each element, as a JavaScript `Set` does. -/
def jsSetDedup (l : List String) : List String :=
  l.foldl (fun acc x => if x ∈ acc then acc else acc ++ [x]) []

/-- `generateSerpQueries` (engine.ts lines 37–115): one planner LM call; the
returned queries are capped with `slice(0, numQueries)`.  A thrown
`GenerationError` propagates to the caller (there is no try/catch). -/
def generateSerpQueries (env : Env) (query : String) (numQueries : Nat)
    (learnings : List String) : Except GenError (List SerpQuery) :=
  (env.plan query numQueries learnings).map fun qs => qs.take numQueries

/-- `processSerpResult` (engine.ts lines 123–222): extract the non-empty
markdown contents, trim each to 25 000 units, short-circuit to an empty
result if no content remains, otherwise call the extractor LM; a thrown
generation error is caught and turned into the empty result.  The second
component records whether (and for which query) the extractor LM was
invoked. -/
def processSerpResult (env : Env) (query : String) (items : List SearchItem)
    (numLearnings numFollowUpQuestions : Nat) :
    SearchProcessingResult × List Event :=
  let contents := (compactStrings (items.map SearchItem.markdown)).map
    fun content => env.trim content 25000
  if contents.length = 0 then
    (⟨[], []⟩, [])
  else
    match env.extract query contents numLearnings numFollowUpQuestions with
    | .ok r => (r, [Event.extractCall query])
    | .error _ => (⟨[], []⟩, [Event.extractCall query])

/-- The follow-up query string built before the recursive call
(engine.ts lines 407–411). -/
def nextQueryText (researchGoal : String) (followUpQuestions : List String) : String :=
  (String.intercalate "\n"
    (["", "Previous research goal: " ++ researchGoal,
      "Follow-up research directions:"] ++
      followUpQuestions.map (fun q => "- " ++ q) ++ [""])).trim

/-- `Math.ceil (breadth / 2)` on a natural number: the breadth passed to a
recursive call (engine.ts line 397). -/
def nextBreadth (breadth : Nat) : Nat := (breadth + 1) / 2

mutual

/-- One branch of the fan-out (the `limit(async () => ...)` closure,
engine.ts lines 324–506), threading the level's mutable progress object.
Returns the settled outcome of the branch promise, the events it emitted
before settling, and the updated progress object.  The branch's try/catch
guards only the awaited calls inside the block: a failed `await
firecrawl.search` lands in the catch, which returns the accumulators passed
into this level and does not touch the progress object.  The recursive
`deepResearch` promise, however, is returned *without* `await`
(engine.ts line 429), so its rejection bypasses this catch: the branch
promise settles exactly as the child settles. -/
def runBranch (env : Env) (query : String) (breadth depth : Nat)
    (learnings visitedUrls : List String) (sq : SerpQuery)
    (p : ResearchProgress) :
    Except GenError ResearchResult × List Event × ResearchProgress :=
  match env.search sq.query with
  | .error _ =>
    -- catch: log and return the current accumulated results (lines 469–505)
    (.ok ⟨learnings, visitedUrls, query⟩, [Event.searchCall sq.query], p)
  | .ok items =>
    let newUrls := compactStrings (items.map SearchItem.url)
    let processed := processSerpResult env sq.query items breadth breadth
    let newResults := processed.1
    let accumulatedLearnings := learnings ++ newResults.learnings
    let accumulatedUrls := visitedUrls ++ newUrls
    let newDepth := depth - 1
    if _h : 0 < newDepth ∧ newResults.followUpQuestions ≠ [] then
      let p' : ResearchProgress :=
        { p with currentDepth := newDepth, currentBreadth := nextBreadth breadth,
                 completedQueries := p.completedQueries + 1,
                 currentQuery := some sq.query }
      let child := deepResearch env
        (nextQueryText sq.researchGoal newResults.followUpQuestions)
        (nextBreadth breadth) newDepth accumulatedLearnings accumulatedUrls
      -- `return deepResearch({...})` without await: outcome passed through
      (child.1, Event.searchCall sq.query :: processed.2 ++
        [Event.progress p'] ++ child.2, p')
    else
      let p' : ResearchProgress :=
        { p with currentDepth := 0,
                 completedQueries := p.completedQueries + 1,
                 currentQuery := some sq.query }
      (.ok ⟨accumulatedLearnings, accumulatedUrls, query⟩,
        Event.searchCall sq.query :: processed.2 ++ [Event.progress p'], p')
termination_by (depth, 0, 0)
decreasing_by
  simp_wf
  exact Prod.Lex.left _ _ (by omega)

/-- The fan-out over the planned queries, sequential admissible schedule of
`Promise.all(serpQueries.map(limit(...)))`.  `Promise.all` is fail-fast: if
a branch rejects (a nested planner error passed through, see `runBranch`),
the level's `await Promise.all` rejects with that error; branches queued
after the failing one settle only after the level has already settled, so
their events fall outside the recorded trace. -/
def runBranches (env : Env) (query : String) (breadth depth : Nat)
    (learnings visitedUrls : List String) (qs : List SerpQuery)
    (p : ResearchProgress) :
    Except GenError (List ResearchResult) × List Event × ResearchProgress :=
  match qs with
  | [] => (.ok [], [], p)
  | sq :: rest =>
    let b := runBranch env query breadth depth learnings visitedUrls sq p
    match b.1 with
    | .error e => (.error e, b.2.1, b.2.2)
    | .ok r =>
      let brest := runBranches env query breadth depth learnings visitedUrls rest b.2.2
      (brest.1.map (fun rs => r :: rs), b.2.1 ++ brest.2.1, brest.2.2)
termination_by (depth, 1, qs.length)
decreasing_by
  · simp_wf
    exact Prod.Lex.right _ (Prod.Lex.left _ _ (by omega))
  · simp_wf
    exact Prod.Lex.right _ (Prod.Lex.right _ (by omega))

/-- `deepResearch` (engine.ts lines 230–523).  Returns the settled outcome
of the returned promise — `Except.error` models the function rejecting,
either with its own planner's generation error (the `generateSerpQueries`
call on line 303 has no try/catch) or with a rejection propagated out of
`await Promise.all` (a nested planner error, see `runBranch`) — together
with the events delivered before settling. -/
def deepResearch (env : Env) (query : String) (breadth depth : Nat)
    (learnings visitedUrls : List String) :
    Except GenError ResearchResult × List Event :=
  let progress0 : ResearchProgress :=
    { currentDepth := depth, totalDepth := depth,
      currentBreadth := breadth, totalBreadth := breadth,
      totalQueries := 0, completedQueries := 0 }
  match generateSerpQueries env query breadth learnings with
  | .error e => (.error e, [Event.levelStart depth breadth])
  | .ok serpQueries =>
    let progress1 : ResearchProgress :=
      { progress0 with totalQueries := serpQueries.length,
                       currentQuery := serpQueries.head?.map SerpQuery.query }
    let branches := runBranches env query breadth depth learnings visitedUrls
      serpQueries progress1
    match branches.1 with
    | .error e =>
      (.error e,
        Event.levelStart depth breadth :: Event.progress progress1 :: branches.2.1)
    | .ok results =>
      let finalResult : ResearchResult :=
        { learnings := jsSetDedup (results.flatMap ResearchResult.learnings),
          visitedUrls := jsSetDedup (results.flatMap ResearchResult.visitedUrls),
          query := query }
      (.ok finalResult,
        Event.levelStart depth breadth :: Event.progress progress1 :: branches.2.1)
termination_by (depth, 2, 0)
decreasing_by
  exact Prod.Lex.right _ (Prod.Lex.left _ _ (by omega))

end

/-! ## Observers over the event trace -/

/-- The successive `completedQueries` values delivered to the progress
sink, in delivery order. -/
def completedSeq (evs : List Event) : List Nat :=
  evs.filterMap fun e =>
    match e with
    | .progress p => some p.completedQueries
    | _ => none

/-- The successive `totalQueries` values delivered to the progress sink. -/
def totalsSeq (evs : List Event) : List Nat :=
  evs.filterMap fun e =>
    match e with
    | .progress p => some p.totalQueries
    | _ => none

/-- All progress snapshots delivered to the sink, in delivery order. -/
def progressSnapshots (evs : List Event) : List ResearchProgress :=
  evs.filterMap fun e =>
    match e with
    | .progress p => some p
    | _ => none

/-- Number of `deepResearch` activations recorded in a trace. -/
def levelStartCount (evs : List Event) : Nat :=
  evs.countP fun e =>
    match e with
    | .levelStart _ _ => true
    | _ => false

/-- Number of recursive self-calls recorded in a trace: every activation
except the outermost one. -/
def recursiveCallCount (evs : List Event) : Nat :=
  levelStartCount evs - 1

/-- Number of fan-out branches (Firecrawl searches) recorded in a trace. -/
def searchCallCount (evs : List Event) : Nat :=
  evs.countP fun e =>
    match e with
    | .searchCall _ => true
    | _ => false

/-- A Boolean check that a delivered number sequence never decreases. -/
def isNonDecreasing : List Nat → Bool
  | [] => true
  | [_] => true
  | a :: b :: t => a ≤ b && isNonDecreasing (b :: t)

/-- The learnings of a settled research run (empty if it rejected). -/
def okLearnings (r : Except GenError ResearchResult × List Event) : List String :=
  match r.1 with
  | .ok x => x.learnings
  | .error _ => []

/-! ## Basic facts about the embedding -/

theorem mem_jsSetDedup_foldl (l : List String) (acc : List String) (x : String) :
    x ∈ l.foldl (fun a y => if y ∈ a then a else a ++ [y]) acc ↔ x ∈ acc ∨ x ∈ l := by
  induction l generalizing acc with
  | nil => simp
  | cons y t ih =>
    by_cases hy : y ∈ acc
    · simp only [List.foldl_cons, if_pos hy, ih]
      constructor
      · rintro (h | h)
        · exact Or.inl h
        · exact Or.inr (List.mem_cons_of_mem _ h)
      · rintro (h | h)
        · exact Or.inl h
        · rcases List.mem_cons.mp h with rfl | h
          · exact Or.inl hy
          · exact Or.inr h
    · simp only [List.foldl_cons, if_neg hy, ih, List.mem_append,
        List.mem_singleton, List.mem_cons]
      tauto

theorem mem_jsSetDedup (l : List String) (x : String) :
    x ∈ jsSetDedup l ↔ x ∈ l := by
  unfold jsSetDedup
  simpa using mem_jsSetDedup_foldl l [] x

/-- Every `deepResearch` activation opens its trace with its own
`levelStart` entry, whether or not it later rejects. -/
theorem deepResearch_events_shape (env : Env) (query : String) (breadth depth : Nat)
    (learnings visitedUrls : List String) :
    ∃ tail, (deepResearch env query breadth depth learnings visitedUrls).2 =
      Event.levelStart depth breadth :: tail := by
  rw [deepResearch]
  cases generateSerpQueries env query breadth learnings with
  | error e => exact ⟨[], rfl⟩
  | ok qs =>
    simp only
    split <;> exact ⟨_, rfl⟩

/-- The outcome a branch contributes to the fan-in does not depend on the
progress object it threads (the progress object is only written to,
never read, when building the branch result). -/
theorem runBranch_fst_indep (env : Env) (query : String) (breadth depth : Nat)
    (learnings visitedUrls : List String) (sq : SerpQuery)
    (p p' : ResearchProgress) :
    (runBranch env query breadth depth learnings visitedUrls sq p).1 =
      (runBranch env query breadth depth learnings visitedUrls sq p').1 := by
  rw [runBranch, runBranch]
  cases env.search sq.query with
  | error e => rfl
  | ok items =>
    simp only
    split <;> rfl

/-- A fan-out that settles successfully did run every planned branch to a
successful outcome, and each branch's value (independent of the threaded
progress object) is among the collected results. -/
theorem runBranches_ok_mem (env : Env) (query : String) (breadth depth : Nat)
    (learnings visitedUrls : List String) :
    ∀ (qs : List SerpQuery) (p p0 : ResearchProgress) (rs : List ResearchResult),
      (runBranches env query breadth depth learnings visitedUrls qs p).1 = .ok rs →
      ∀ sq ∈ qs, ∃ r,
        (runBranch env query breadth depth learnings visitedUrls sq p0).1 = .ok r ∧
        r ∈ rs := by
  intro qs
  induction qs with
  | nil =>
    intro p p0 rs h sq hsq
    cases hsq
  | cons shd stl ih =>
    intro p p0 rs h sq hsq
    rw [runBranches] at h
    cases hb : (runBranch env query breadth depth learnings visitedUrls shd p).1 with
    | error e =>
      simp only [hb] at h
      exact Except.noConfusion h
    | ok r =>
      simp only [hb] at h
      cases hrest : (runBranches env query breadth depth learnings visitedUrls stl
          (runBranch env query breadth depth learnings visitedUrls shd p).2.2).1 with
      | error e =>
        simp only [hrest, Except.map] at h
        exact Except.noConfusion h
      | ok rs' =>
        simp only [hrest, Except.map, Except.ok.injEq] at h
        rcases List.mem_cons.mp hsq with rfl | hmem
        · refine ⟨r, ?_, by rw [← h]; exact List.mem_cons_self _ _⟩
          rw [runBranch_fst_indep env query breadth depth learnings visitedUrls sq p0 p]
          exact hb
        · obtain ⟨r', hr', hmem'⟩ := ih _ p0 rs' hrest sq hmem
          exact ⟨r', hr', by rw [← h]; exact List.mem_cons_of_mem _ hmem'⟩

/-- The event trace of a `deepResearch` activation whose planner call
succeeded: level entry, the initial progress snapshot, then the fan-out's
events. -/
theorem deepResearch_events_ok (env : Env) (query : String) (breadth depth : Nat)
    (learnings visitedUrls : List String) (qs : List SerpQuery)
    (hg : generateSerpQueries env query breadth learnings = .ok qs) :
    (deepResearch env query breadth depth learnings visitedUrls).2 =
      Event.levelStart depth breadth ::
      Event.progress ⟨depth, depth, breadth, breadth, qs.length, 0,
        qs.head?.map SerpQuery.query⟩ ::
      (runBranches env query breadth depth learnings visitedUrls qs
        ⟨depth, depth, breadth, breadth, qs.length, 0,
          qs.head?.map SerpQuery.query⟩).2.1 := by
  rw [deepResearch]
  simp only [hg]
  split <;> rfl

/-- A single-query fan-out records exactly its one branch's events, whether
that branch settled successfully or rejected. -/
theorem runBranches_singleton_events (env : Env) (query : String)
    (breadth depth : Nat) (learnings visitedUrls : List String)
    (sq : SerpQuery) (p : ResearchProgress) :
    (runBranches env query breadth depth learnings visitedUrls [sq] p).2.1 =
      (runBranch env query breadth depth learnings visitedUrls sq p).2.1 := by
  rw [runBranches]
  cases h : (runBranch env query breadth depth learnings visitedUrls sq p).1 with
  | error e => simp only [h]
  | ok r =>
    simp only [h]
    rw [runBranches]
    simp

/-! ## The prompt-trimming utility (`trimPrompt`, AI provider module)

JavaScript strings are modelled as lists of UTF-16 code units
(`List Char`), so that `.length`, `.slice(0, n)` and emptiness checks are
`List.length`, `List.take n` and `= []`. -/

/-- The external pieces `trimPrompt` depends on.

`enc` is the `js-tiktoken` `o200k_base` encoder (an external library;
`enc s` is `encoder.encode(s).length`, consulted only on non-empty input).

`splitFirst c s` — Modelled from the spec: the repository module
`src/ai/text/splitter` (the `RecursiveCharacterTextSplitter` whose
`splitText(prompt)[0] ?? ''` the source takes, with `chunkSize := c`) is
not present in the provided sources.  Per the spec the trimming step
"returns a prefix/subdivision of the input", so the only property the
model fixes is that the first chunk is never longer than the input
(`splitFirst_length_le`). -/
structure TrimModel where
  enc : List Char → Nat
  splitFirst : Nat → List Char → List Char
  splitFirst_length_le : ∀ c s, (splitFirst c s).length ≤ s.length

/-- `countTokens` (provider module): 0 on the empty string, otherwise the
encoder's token count. -/
def countTokens (m : TrimModel) (s : List Char) : Nat :=
  if s.isEmpty then 0 else m.enc s

/-- `MinChunkSize` from the provider module. -/
def MinChunkSize : Nat := 140

/-- `trimPrompt` (provider module, `src/unnamed/part_002` lines 53–91):
repeatedly shrink the prompt until it fits `contextSize` tokens, splitting
at the character budget `chunkSize` estimated from the token overflow
(3 characters per token); below the 140-character floor, hard-cut to 140
characters and stop. -/
def trimPrompt (m : TrimModel) (prompt : List Char) (contextSize : Nat) : List Char :=
  if prompt.isEmpty then []
  else if hfit : countTokens m prompt ≤ contextSize then prompt
  else if
    -- `chunkSize = prompt.length - overflowTokens * 3` with
    -- `overflowTokens = length - contextSize`
    hmin : ((prompt.length : Int) - ((countTokens m prompt - contextSize : Nat) : Int) * 3)
      < (MinChunkSize : Int) then
    prompt.take MinChunkSize
  else if hsame :
      (m.splitFirst ((prompt.length : Int) -
        ((countTokens m prompt - contextSize : Nat) : Int) * 3).toNat prompt).length
        = prompt.length then
    trimPrompt m
      (prompt.take ((prompt.length : Int) -
        ((countTokens m prompt - contextSize : Nat) : Int) * 3).toNat)
      contextSize
  else
    trimPrompt m
      (m.splitFirst ((prompt.length : Int) -
        ((countTokens m prompt - contextSize : Nat) : Int) * 3).toNat prompt)
      contextSize
termination_by prompt.length
decreasing_by
  · rename_i hne
    simp only [List.length_take]
    have h2 : prompt.length ≠ 0 := by
      simpa [List.isEmpty_iff_length_eq_zero] using hne
    omega
  · have := m.splitFirst_length_le
      ((prompt.length : Int) - ((countTokens m prompt - contextSize : Nat) : Int) * 3).toNat
      prompt
    omega

theorem trimPrompt_of_fits (m : TrimModel) (p : List Char) (N : Nat)
    (h : countTokens m p ≤ N) : trimPrompt m p N = p := by
  rw [trimPrompt]
  by_cases hp : p.isEmpty
  · rw [if_pos hp]
    exact (List.isEmpty_iff.mp hp).symm
  · rw [if_neg hp, dif_pos h]

theorem trimPrompt_le_and_floor (m : TrimModel) (N : Nat) :
    ∀ n (p : List Char), p.length ≤ n →
      (trimPrompt m p N).length ≤ p.length ∧
        (countTokens m (trimPrompt m p N) ≤ N ∨
          (trimPrompt m p N).length ≤ MinChunkSize) := by
  intro n
  induction n with
  | zero =>
    intro p hp
    have hpe : p = [] := List.length_eq_zero.mp (Nat.le_zero.mp hp)
    subst hpe
    rw [trimPrompt]
    simp [countTokens]
  | succ n ih =>
    intro p hp
    rw [trimPrompt]
    by_cases hpe : p.isEmpty
    · rw [if_pos hpe]
      simp [countTokens]
    · rw [if_neg hpe]
      by_cases hfit : countTokens m p ≤ N
      · rw [dif_pos hfit]
        exact ⟨le_rfl, Or.inl hfit⟩
      · rw [dif_neg hfit]
        by_cases hmin : ((p.length : Int) - ((countTokens m p - N : Nat) : Int) * 3)
            < (MinChunkSize : Int)
        · rw [dif_pos hmin]
          refine ⟨?_, Or.inr ?_⟩
          · simp [List.length_take]
          · simp [List.length_take]
        · rw [dif_neg hmin]
          have hlen1 : p.length ≠ 0 := by
            simpa [List.isEmpty_iff_length_eq_zero] using hpe
          by_cases hsame :
              (m.splitFirst ((p.length : Int) -
                ((countTokens m p - N : Nat) : Int) * 3).toNat p).length = p.length
          · rw [dif_pos hsame]
            have hlt : (p.take ((p.length : Int) -
                ((countTokens m p - N : Nat) : Int) * 3).toNat).length < p.length := by
              simp only [List.length_take]
              omega
            have := ih (p.take ((p.length : Int) -
              ((countTokens m p - N : Nat) : Int) * 3).toNat) (by omega)
            exact ⟨this.1.trans (by omega), this.2⟩
          · rw [dif_neg hsame]
            have hle := m.splitFirst_length_le
              ((p.length : Int) - ((countTokens m p - N : Nat) : Int) * 3).toNat p
            have hlt : (m.splitFirst ((p.length : Int) -
                ((countTokens m p - N : Nat) : Int) * 3).toNat p).length < p.length := by
              omega
            have := ih (m.splitFirst ((p.length : Int) -
              ((countTokens m p - N : Nat) : Int) * 3).toNat p) (by omega)
            exact ⟨this.1.trans (by omega), this.2⟩

theorem trimPrompt_idem (m : TrimModel) (p : List Char) (N : Nat) :
    trimPrompt m (trimPrompt m p N) N = trimPrompt m p N := by
  rcases (trimPrompt_le_and_floor m N p.length p le_rfl).2 with hfits | hsmall
  · exact trimPrompt_of_fits m _ N hfits
  · by_cases hf : countTokens m (trimPrompt m p N) ≤ N
    · exact trimPrompt_of_fits m _ N hf
    · rw [trimPrompt]
      have hRne : ¬ (trimPrompt m p N).isEmpty := by
        intro hc
        have : trimPrompt m p N = [] := List.isEmpty_iff.mp hc
        rw [this] at hf
        simp [countTokens] at hf
      rw [if_neg hRne, dif_neg hf]
      have hMCS : MinChunkSize = 140 := rfl
      have hmin : (((trimPrompt m p N).length : Int) -
          ((countTokens m (trimPrompt m p N) - N : Nat) : Int) * 3) < (MinChunkSize : Int) := by
        have h1 : 1 ≤ countTokens m (trimPrompt m p N) - N := by omega
        omega
      rw [dif_pos hmin]
      exact List.take_of_length_le (by omega)

/-- A concrete instantiation of the external tokenizer/splitter pair:
every code unit is one token, and the splitter returns the prefix of the
requested chunk size. -/
def unitTokenizer : TrimModel where
  enc := fun s => s.length
  splitFirst := fun c s => s.take c
  splitFirst_length_le := fun c s => by
    rw [List.length_take]
    exact min_le_right _ _


/-! ## Claim C9 -/

/-- C9 (counterexample): `trimPrompt` does not always return text that fits
within the size limit.  With every code unit counting as one token, an
11-unit prompt trimmed to a budget of 10 hits the 140-character
minimum-chunk floor (`chunkSize = 11 - 3 < 140`), so the source hard-cuts
to the first 140 characters and returns — here the whole 11-token prompt,
which still exceeds the budget of 10. -/
theorem c9_trimPrompt_floor_overflow_cex :
    10 < countTokens unitTokenizer (trimPrompt unitTokenizer (List.replicate 11 'a') 10) := by
  rw [trimPrompt]
  decide

/-- C9 (amended): if the prompt already fits the budget it is returned
unchanged; the result is never longer than the input; the result fits the
budget unless the 140-character minimum-chunk floor was applied (in which
case it is at most 140 units long); and `trimPrompt` is idempotent. -/
theorem c9_trimPrompt_contract (m : TrimModel) (p : List Char) (N : Nat) :
    (countTokens m p ≤ N → trimPrompt m p N = p) ∧
    (trimPrompt m p N).length ≤ p.length ∧
    (countTokens m (trimPrompt m p N) ≤ N ∨ (trimPrompt m p N).length ≤ MinChunkSize) ∧
    trimPrompt m (trimPrompt m p N) N = trimPrompt m p N :=
  ⟨trimPrompt_of_fits m p N, (trimPrompt_le_and_floor m N p.length p le_rfl).1,
   (trimPrompt_le_and_floor m N p.length p le_rfl).2, trimPrompt_idem m p N⟩

/-- C9 (witness): a two-unit prompt within a five-token budget is returned
unchanged. -/
theorem c9_trimPrompt_contract_witness :
    trimPrompt unitTokenizer ['a', 'b'] 5 = ['a', 'b'] :=
  (c9_trimPrompt_contract unitTokenizer ['a', 'b'] 5).1 (by decide)

/-! ## Concrete collaborator environments used in witnesses and
counterexamples -/

/-- Planner yields one query, every Firecrawl search fails. -/
def envSearchFails : Env where
  plan := fun _ _ _ => .ok [⟨"s", "g"⟩]
  search := fun _ => .error (.timeout "Timeout")
  extract := fun _ _ _ _ => .ok ⟨["L"], ["F"]⟩
  trim := fun s _ => s

/-- Planner yields the empty query list, nothing else is ever reached. -/
def envEmptyPlan : Env where
  plan := fun _ _ _ => .ok []
  search := fun _ => .error (.fetch "unreachable")
  extract := fun _ _ _ _ => .error (.generation "unreachable")
  trim := fun s _ => s

/-- Every collaborator succeeds and always produces one query, one
content item, one learning and one follow-up question. -/
def envChain : Env where
  plan := fun _ _ _ => .ok [⟨"s", "g"⟩]
  search := fun _ => .ok [⟨some "u", some "m"⟩]
  extract := fun _ _ _ _ => .ok ⟨["L"], ["F"]⟩
  trim := fun s _ => s

/-- The planner LM always rejects. -/
def envPlanRejects : Env where
  plan := fun _ _ _ => .error (.generation "bad")
  search := fun _ => .ok [⟨some "u", some "m"⟩]
  extract := fun _ _ _ _ => .ok ⟨["L"], ["F"]⟩
  trim := fun s _ => s

/-- Search succeeds with content but the extractor LM always rejects. -/
def envExtractFails : Env where
  plan := fun _ _ _ => .ok [⟨"s", "g"⟩]
  search := fun _ => .ok [⟨some "u", some "m"⟩]
  extract := fun _ _ _ _ => .error (.generation "bad")
  trim := fun s _ => s

/-! ## Claim C10 -/

/-- C10: when the search response carries no non-empty markdown content,
`processSerpResult` returns the empty result immediately and the extractor
LM (`generateObject`) is never invoked — no `extractCall` event is
recorded and the outcome is independent of the extractor oracle. -/
theorem c10_no_content_skips_model (env : Env) (query : String)
    (items : List SearchItem) (numLearnings numFollowUpQuestions : Nat)
    (h : compactStrings (items.map SearchItem.markdown) = []) :
    processSerpResult env query items numLearnings numFollowUpQuestions =
      (⟨[], []⟩, []) := by
  simp [processSerpResult, h]

/-- C10 (witness): a response whose items carry only a URL or an empty
markdown string is skipped without consulting the extractor. -/
theorem c10_no_content_skips_model_witness :
    processSerpResult envChain "q" [⟨some "u", none⟩, ⟨none, some ""⟩] 3 3 =
      (⟨[], []⟩, []) :=
  c10_no_content_skips_model envChain "q" [⟨some "u", none⟩, ⟨none, some ""⟩] 3 3
    (by decide)

/-! ## Claim C1 -/

/-- C1 (counterexample): with one planned query whose fetch times out, the
only progress snapshot ever delivered reports `completedQueries = 0` while
`totalQueries = 1`: the handled fetch failure does not increment
`completedQueries` (the catch block of the branch performs no progress
update), so progress never reaches `completedQueries = totalQueries`. -/
theorem c1_fetch_failure_not_counted_cex :
    completedSeq (deepResearch envSearchFails "q" 1 1 [] []).2 = [0] ∧
    totalsSeq (deepResearch envSearchFails "q" 1 1 [] []).2 = [1] := by
  constructor <;>
    simp [deepResearch, runBranches, runBranch, generateSerpQueries,
      envSearchFails, completedSeq, totalsSeq, Except.map]

/-- C1 (amended): a branch increments the level's `completedQueries` by
exactly 1 when its fetch succeeds (whether or not extraction succeeded,
and whether it recursed or terminated), and leaves the counter unchanged
when its fetch fails and the branch's catch handler runs. -/
theorem c1_branch_completed_increment (env : Env) (query : String)
    (breadth depth : Nat) (learnings visitedUrls : List String)
    (sq : SerpQuery) (p : ResearchProgress) :
    (runBranch env query breadth depth learnings visitedUrls sq p).2.2.completedQueries =
      if (env.search sq.query).isOk then p.completedQueries + 1
      else p.completedQueries := by
  rw [runBranch]
  cases env.search sq.query with
  | error e => simp [Except.isOk, Except.toBool]
  | ok items =>
    simp only [Except.isOk, Except.toBool, if_true]
    split <;> rfl

/-! ## Claim C2 -/

/-- C2 (counterexample): when the planner returns the empty query list the
engine does not return the accumulators unchanged — it returns the empty
deduplicated union over zero branches, dropping the non-empty input
accumulators `["x"]` and `["v"]`. -/
theorem c2_empty_plan_drops_accumulators_cex :
    (deepResearch envEmptyPlan "q" 1 1 ["x"] ["v"]).1 =
      .ok ⟨[], [], "q"⟩ ∧
    (["x"] : List String) ≠ [] ∧ (["v"] : List String) ≠ [] := by
  refine ⟨?_, by simp, by simp⟩
  simp [deepResearch, runBranches, generateSerpQueries, envEmptyPlan,
    Except.map, jsSetDedup]

/-- C2 (amended): when the planner returns the empty query list, the
engine spawns no branches (no search event is recorded) and returns the
*empty* learnings/URL sets — not the accumulators passed in; the two
coincide only when the accumulators are empty. -/
theorem c2_empty_plan_returns_empty (env : Env) (query : String)
    (breadth depth : Nat) (learnings visitedUrls : List String)
    (h : env.plan query breadth learnings = .ok []) :
    deepResearch env query breadth depth learnings visitedUrls =
      (.ok ⟨[], [], query⟩,
        [Event.levelStart depth breadth,
         Event.progress ⟨depth, depth, breadth, breadth, 0, 0, none⟩]) := by
  rw [deepResearch]
  simp [generateSerpQueries, h, Except.map, runBranches, jsSetDedup]

/-- C2 (witness): an empty plan on non-empty accumulators yields the empty
result with exactly the level-entry and one zero-progress event. -/
theorem c2_empty_plan_returns_empty_witness :
    deepResearch envEmptyPlan "q" 2 1 ["x"] ["v"] =
      (.ok ⟨[], [], "q"⟩,
        [Event.levelStart 1 2, Event.progress ⟨1, 1, 2, 2, 0, 0, none⟩]) :=
  c2_empty_plan_returns_empty envEmptyPlan "q" 2 1 ["x"] ["v"] rfl

/-! ## Claim C8 -/

/-- A planner rejection makes the whole `deepResearch` call reject: the
engine never wraps `generateSerpQueries` in a try/catch. -/
theorem deepResearch_of_plan_error (env : Env) (query : String)
    (breadth depth : Nat) (learnings visitedUrls : List String) (e : GenError)
    (h : env.plan query breadth learnings = .error e) :
    deepResearch env query breadth depth learnings visitedUrls =
      (.error e, [Event.levelStart depth breadth]) := by
  rw [deepResearch]
  simp [generateSerpQueries, h, Except.map]

/-- C8 (counterexample): a `GenerationError` raised by the query planner
at the top level is not treated as an empty query list — the whole
`deepResearch` call rejects with that error, propagating it to the
caller. -/
theorem c8_planner_error_propagates_cex :
    (deepResearch envPlanRejects "q" 1 1 [] []).1 = .error (.generation "bad") := by
  simp [deepResearch, generateSerpQueries, envPlanRejects, Except.map]

/-- Planner yields one query while no prior learnings exist (the top-level
call) and rejects once learnings have accumulated; search and extraction
succeed with a follow-up question, so depth permitting the engine recurses
into the failing planner call. -/
def envNestedPlanFails : Env where
  plan := fun _ _ l =>
    if l = [] then .ok [⟨"s", "g"⟩] else .error (.generation "bad")
  search := fun _ => .ok [⟨some "u", some "m"⟩]
  extract := fun _ _ _ _ => .ok ⟨["L"], ["F"]⟩
  trim := fun s _ => s

/-- C8 (amended): planner failures are never recovered, at any level:
(i) a planner `GenerationError` at the top level of a `deepResearch` call
propagates out to its caller (it is not converted to an empty query list);
(ii) an extractor failure is recovered locally inside `processSerpResult`,
yielding the empty extraction result; (iii) a planner error raised inside a
recursive call is *not* caught by the parent branch — the recursive promise
is returned without `await`, so the rejection bypasses the branch's
try/catch and the branch promise rejects with it; (iv) a fetch failure *is*
recovered locally by the branch catch, which substitutes the branch's input
accumulators; (v) a rejected branch rejects the level's `Promise.all`, so a
nested planner error surfaces at the top-level caller. -/
theorem c8_failure_recovery_scopes :
    (∀ (env : Env) (q : String) (b d : Nat) (l u : List String) (e : GenError),
      env.plan q b l = .error e →
      deepResearch env q b d l u = (.error e, [Event.levelStart d b])) ∧
    (∀ (env : Env) (q : String) (items : List SearchItem) (n1 n2 : Nat) (e : GenError),
      compactStrings (items.map SearchItem.markdown) ≠ [] →
      env.extract q ((compactStrings (items.map SearchItem.markdown)).map
        (fun c => env.trim c 25000)) n1 n2 = .error e →
      processSerpResult env q items n1 n2 = (⟨[], []⟩, [Event.extractCall q])) ∧
    (∀ (env : Env) (q : String) (b d : Nat) (l u : List String)
        (sq : SerpQuery) (p : ResearchProgress) (items : List SearchItem) (e : GenError),
      env.search sq.query = .ok items →
      (processSerpResult env sq.query items b b).1.followUpQuestions ≠ [] →
      2 ≤ d →
      env.plan
        (nextQueryText sq.researchGoal
          (processSerpResult env sq.query items b b).1.followUpQuestions)
        (nextBreadth b)
        (l ++ (processSerpResult env sq.query items b b).1.learnings) = .error e →
      (runBranch env q b d l u sq p).1 = .error e) ∧
    (∀ (env : Env) (q : String) (b d : Nat) (l u : List String)
        (sq : SerpQuery) (p : ResearchProgress) (fe : FetchError),
      env.search sq.query = .error fe →
      (runBranch env q b d l u sq p).1 = .ok ⟨l, u, q⟩) ∧
    (∀ (env : Env) (q : String) (b d : Nat) (l u : List String)
        (sq : SerpQuery) (rest : List SerpQuery) (p : ResearchProgress)
        (planned : List SerpQuery) (e : GenError),
      env.plan q b l = .ok planned →
      planned.take b = sq :: rest →
      (runBranch env q b d l u sq p).1 = .error e →
      (deepResearch env q b d l u).1 = .error e) := by
  refine ⟨fun env q b d l u e h => deepResearch_of_plan_error env q b d l u e h,
    fun env q items n1 n2 e hne hx => ?_,
    fun env q b d l u sq p items e hs hf hd hcp => ?_,
    fun env q b d l u sq p fe hs => ?_,
    fun env q b d l u sq rest p planned e hp htake hbr => ?_⟩
  · have hlen : ¬ ((compactStrings (items.map SearchItem.markdown)).length = 0) := by
      simpa [List.length_eq_zero] using hne
    simp [processSerpResult, hlen, hx]
  · rw [runBranch]
    rw [hs]
    simp only
    rw [dif_pos ⟨by omega, hf⟩]
    rw [deepResearch_of_plan_error _ _ _ _ _ _ _ hcp]
  · rw [runBranch, hs]
  · rw [deepResearch]
    simp only [generateSerpQueries, hp, Except.map, htake]
    rw [runBranches]
    have hb1 : (runBranch env q b d l u sq
        ⟨d, d, b, b, (sq :: rest).length, 0,
          Option.map SerpQuery.query (some sq)⟩).1 = .error e := by
      rw [runBranch_fst_indep env q b d l u sq _ p]
      exact hbr
    simp only [List.head?_cons, hb1]

/-- C8 (witness): the five scopes at concrete collaborators — a top-level
planner rejection surfaces; an extractor rejection yields the empty
extraction; a nested planner rejection passes uncaught through the parent
branch; a fetch failure is caught and returns the input accumulators; and
the nested rejection reaches the top-level caller. -/
theorem c8_failure_recovery_scopes_witness :
    deepResearch envPlanRejects "q" 1 1 [] [] =
      (.error (.generation "bad"), [Event.levelStart 1 1]) ∧
    processSerpResult envExtractFails "q" [⟨some "u", some "m"⟩] 2 2 =
      (⟨[], []⟩, [Event.extractCall "q"]) ∧
    (runBranch envNestedPlanFails "q" 1 2 [] [] ⟨"s", "g"⟩
      ⟨2, 2, 1, 1, 1, 0, none⟩).1 = .error (.generation "bad") ∧
    (runBranch envSearchFails "q" 1 1 ["x"] ["v"] ⟨"s", "g"⟩
      ⟨1, 1, 1, 1, 1, 0, none⟩).1 = .ok ⟨["x"], ["v"], "q"⟩ ∧
    (deepResearch envNestedPlanFails "q" 1 2 [] []).1 =
      .error (.generation "bad") := by
  have hbr : (runBranch envNestedPlanFails "q" 1 2 [] [] ⟨"s", "g"⟩
      ⟨2, 2, 1, 1, 1, 0, none⟩).1 = .error (.generation "bad") :=
    c8_failure_recovery_scopes.2.2.1 envNestedPlanFails "q" 1 2 [] [] ⟨"s", "g"⟩
      ⟨2, 2, 1, 1, 1, 0, none⟩ [⟨some "u", some "m"⟩] (.generation "bad")
      rfl (by decide) (by decide) (by decide)
  refine ⟨c8_failure_recovery_scopes.1 envPlanRejects "q" 1 1 [] []
      (.generation "bad") rfl,
    c8_failure_recovery_scopes.2.1 envExtractFails "q" [⟨some "u", some "m"⟩] 2 2
      (.generation "bad") (by decide) rfl,
    hbr,
    c8_failure_recovery_scopes.2.2.2.1 envSearchFails "q" 1 1 ["x"] ["v"] ⟨"s", "g"⟩
      ⟨1, 1, 1, 1, 1, 0, none⟩ (.timeout "Timeout") rfl,
    c8_failure_recovery_scopes.2.2.2.2 envNestedPlanFails "q" 1 2 [] [] ⟨"s", "g"⟩
      [] ⟨2, 2, 1, 1, 1, 0, none⟩ [⟨"s", "g"⟩] (.generation "bad")
      (by decide) (by decide) hbr⟩

/-! ## Claim C6 -/

/-- C6: whenever a branch recurses (fetch succeeded, depth at least 2
remains, and the extractor produced a follow-up question), the child
activation it starts runs at exactly `depth - 1` and `ceil (breadth / 2)`,
as the recorded child `levelStart` shows; moreover the breadth
transformation is non-increasing from any positive breadth, reaches 1
after finitely many halvings, and is stationary at 1. -/
theorem c6_recursion_parameters (env : Env) (query : String)
    (breadth depth : Nat) (learnings visitedUrls : List String)
    (sq : SerpQuery) (p : ResearchProgress) (items : List SearchItem)
    (hs : env.search sq.query = .ok items)
    (hf : (processSerpResult env sq.query items breadth breadth).1.followUpQuestions ≠ [])
    (hd : 2 ≤ depth) :
    Event.levelStart (depth - 1) (nextBreadth breadth) ∈
      (runBranch env query breadth depth learnings visitedUrls sq p).2.1 ∧
    (∀ b, 1 ≤ b → nextBreadth b ≤ b ∧ ∃ k, nextBreadth^[k] b = 1) ∧
    (∀ k, nextBreadth^[k] 1 = 1) := by
  refine ⟨?_, fun b hb => ⟨?_, ?_⟩, fun k => ?_⟩
  · rw [runBranch]
    rw [hs]
    simp only
    rw [dif_pos ⟨by omega, hf⟩]
    obtain ⟨tail, htail⟩ := deepResearch_events_shape env
      (nextQueryText sq.researchGoal
        (processSerpResult env sq.query items breadth breadth).1.followUpQuestions)
      (nextBreadth breadth) (depth - 1)
      (learnings ++ (processSerpResult env sq.query items breadth breadth).1.learnings)
      (visitedUrls ++ compactStrings (items.map SearchItem.url))
    rcases hchild : deepResearch env
      (nextQueryText sq.researchGoal
        (processSerpResult env sq.query items breadth breadth).1.followUpQuestions)
      (nextBreadth breadth) (depth - 1)
      (learnings ++ (processSerpResult env sq.query items breadth breadth).1.learnings)
      (visitedUrls ++ compactStrings (items.map SearchItem.url)) with ⟨res, childEvents⟩
    have hce : childEvents = Event.levelStart (depth - 1) (nextBreadth breadth) :: tail := by
      rw [hchild] at htail
      exact htail
    cases res <;> simp [hce]
  · unfold nextBreadth
    omega
  · induction b using Nat.strong_induction_on with
    | _ b ih =>
      rcases Nat.lt_or_ge b 2 with hb2 | hb2
      · have : b = 1 := by omega
        subst this
        exact ⟨0, rfl⟩
      · have h1 : 1 ≤ nextBreadth b := by unfold nextBreadth; omega
        have h2 : nextBreadth b < b := by unfold nextBreadth; omega
        obtain ⟨k, hk⟩ := ih (nextBreadth b) h2 h1
        exact ⟨k + 1, by rw [Function.iterate_succ_apply, hk]⟩
  · induction k with
    | zero => rfl
    | succ k ih => rw [Function.iterate_succ_apply, show nextBreadth 1 = 1 from rfl, ih]

/-- C6 (witness): at depth 2 and breadth 1 against always-succeeding
collaborators, the child level starts at depth 1, breadth 1. -/
theorem c6_recursion_parameters_witness :
    Event.levelStart 1 1 ∈
      (runBranch envChain "q" 1 2 [] [] ⟨"s", "g"⟩ ⟨2, 2, 1, 1, 1, 0, none⟩).2.1 :=
  ((c6_recursion_parameters envChain "q" 1 2 [] [] ⟨"s", "g"⟩
    ⟨2, 2, 1, 1, 1, 0, none⟩ [⟨some "u", some "m"⟩]
    rfl (by decide) (by decide)).1)

/-! ## Claims C4 and C5: counterexamples -/

/-- C4 (counterexample): on a depth-2 chain run the sink receives the
`completedQueries` sequence `[0, 1, 0, 1]` — the parent level reports 1
completed query before the recursive activation re-initialises its own
progress object at 0 — so the delivered sequence is not non-decreasing. -/
theorem c4_sink_sequence_not_monotone_cex :
    completedSeq (deepResearch envChain "q" 1 2 [] []).2 = [0, 1, 0, 1] ∧
    isNonDecreasing [0, 1, 0, 1] = false := by
  refine ⟨?_, by decide⟩
  simp [deepResearch, runBranches, runBranch, generateSerpQueries, processSerpResult,
    compactStrings, envChain, completedSeq, Except.map, nextBreadth,
    show "m".isEmpty = false from rfl]

/-- C5 (counterexample): with initial depth 2 and collaborators that always
produce a query and a follow-up question, the run records exactly two
activations, i.e. exactly one recursive self-call — not two: recursion
stops when the remaining depth reaches 1, so the self-call count along the
chain is `depth - 1`, not `depth`. -/
theorem c5_recursion_count_cex :
    recursiveCallCount (deepResearch envChain "q" 1 2 [] []).2 = 1 ∧
    (1 : Nat) ≠ 2 := by
  refine ⟨?_, by decide⟩
  have h : (deepResearch envChain "q" 1 2 [] []).2 =
      [Event.levelStart 2 1,
       Event.progress ⟨2, 2, 1, 1, 1, 0, some "s"⟩,
       Event.searchCall "s", Event.extractCall "s",
       Event.progress ⟨1, 2, 1, 1, 1, 1, some "s"⟩,
       Event.levelStart 1 1,
       Event.progress ⟨1, 1, 1, 1, 1, 0, some "s"⟩,
       Event.searchCall "s", Event.extractCall "s",
       Event.progress ⟨0, 1, 1, 1, 1, 1, some "s"⟩] := by
    simp [deepResearch, runBranches, runBranch, generateSerpQueries, processSerpResult,
      compactStrings, envChain, Except.map, nextBreadth,
      show "m".isEmpty = false from rfl]
  rw [h]
  decide

/-- C5 (amended): against collaborators that always return exactly one
planned query, content-bearing search results, and at least one follow-up
question, `deepResearch` always terminates (the embedding is a total
function) with `max depth 1` activations along the chain; the number of
recursive self-calls is therefore `depth - 1` (zero at depth 0 and 1),
not `depth`. -/
theorem c5_chain_recursion_count (env : Env)
    (hplan : ∀ q n l, ∃ sq, env.plan q n l = .ok [sq])
    (hsearch : ∀ q, ∃ items, env.search q = .ok items ∧
      compactStrings (items.map SearchItem.markdown) ≠ [])
    (hextract : ∀ q c n1 n2, ∃ r, env.extract q c n1 n2 = .ok r ∧
      r.followUpQuestions ≠ []) :
    ∀ d q b l u, 1 ≤ b →
      levelStartCount (deepResearch env q b d l u).2 = max d 1 ∧
      recursiveCallCount (deepResearch env q b d l u).2 = d - 1 := by
  intro d
  induction d using Nat.strong_induction_on with
  | _ d ih =>
    intro q b l u hb
    suffices h : levelStartCount (deepResearch env q b d l u).2 = max d 1 by
      refine ⟨h, ?_⟩
      rw [recursiveCallCount, h]
      omega
    obtain ⟨sq, hsq⟩ := hplan q b l
    obtain ⟨items, hsi, hsc⟩ := hsearch sq.query
    obtain ⟨r, hxr, hfu⟩ := hextract sq.query
      ((compactStrings (items.map SearchItem.markdown)).map (fun c => env.trim c 25000))
      b b
    have hproc : processSerpResult env sq.query items b b =
        (r, [Event.extractCall sq.query]) := by
      have hlen : ¬ ((compactStrings (items.map SearchItem.markdown)).length = 0) := by
        simpa [List.length_eq_zero] using hsc
      simp [processSerpResult, hlen, hxr]
    have htake : ([sq] : List SerpQuery).take b = [sq] :=
      List.take_of_length_le (by simpa using hb)
    have hg : generateSerpQueries env q b l = .ok [sq] := by
      simp only [generateSerpQueries, hsq, Except.map, htake]
    rw [deepResearch_events_ok env q b d l u [sq] hg]
    rw [runBranches_singleton_events]
    rw [runBranch]
    rw [hsi]
    simp only [hproc]
    rcases Nat.lt_or_ge d 2 with hd | hd
    · rw [dif_neg (by rintro ⟨h1, -⟩; omega)]
      simp [levelStartCount, List.countP_append, List.countP_cons]
      omega
    · rw [dif_pos ⟨by omega, hfu⟩]
      have hcount := (ih (d - 1) (by omega)
        (nextQueryText sq.researchGoal r.followUpQuestions)
        (nextBreadth b) (l ++ r.learnings)
        (u ++ compactStrings (items.map SearchItem.url))
        (by unfold nextBreadth; omega)).1
      simp only [levelStartCount, List.countP_append, List.countP_cons] at hcount ⊢
      simp at hcount ⊢
      omega

/-- C5 (witness): a depth-3 chain run against the always-productive
collaborators performs exactly two recursive self-calls. -/
theorem c5_chain_recursion_count_witness :
    levelStartCount (deepResearch envChain "q" 1 3 [] []).2 = max 3 1 ∧
    recursiveCallCount (deepResearch envChain "q" 1 3 [] []).2 = 3 - 1 :=
  c5_chain_recursion_count envChain
    (fun _ _ _ => ⟨⟨"s", "g"⟩, rfl⟩)
    (fun _ => ⟨[⟨some "u", some "m"⟩], rfl, by decide⟩)
    (fun _ _ _ _ => ⟨⟨["L"], ["F"]⟩, rfl, by decide⟩)
    3 "q" 1 [] [] (by decide)

/-! ## Claim C3 -/

/-- A query planner that returns a query list but never errors out with an
empty one (after the `slice(0, numQueries)` cap); search always fails so
each branch falls into its catch handler. -/
def envGuardedPlan : Env where
  plan := fun _ n _ => if n = 0 then .error (.generation "zero") else .ok [⟨"s", "g"⟩]
  search := fun _ => .error (.timeout "Timeout")
  extract := fun _ _ _ _ => .ok ⟨["L"], ["F"]⟩
  trim := fun s _ => s

/-- C3 (counterexample): accumulator monotonicity fails when the planner
returns the empty query list: the input learning `"keep"` is absent from
the returned learnings, which are empty. -/
theorem c3_empty_plan_breaks_superset_cex :
    okLearnings (deepResearch envEmptyPlan "q" 2 1 ["keep"] []) = [] ∧
    "keep" ∉ okLearnings (deepResearch envEmptyPlan "q" 2 1 ["keep"] []) := by
  have h : okLearnings (deepResearch envEmptyPlan "q" 2 1 ["keep"] []) = [] := by
    simp [okLearnings, deepResearch, runBranches, generateSerpQueries, envEmptyPlan,
      Except.map, jsSetDedup]
  exact ⟨h, by rw [h]; simp⟩

/-- C3 (amended): whenever every planner call that succeeds yields a
non-empty (capped) query list, the result of a successful `deepResearch`
call contains every input learning and every input visited URL — the
returned sets are supersets of the accumulators.  (The counterexample shows
the hypothesis is necessary: an empty planner result drops the
accumulators.) -/
theorem c3_accumulator_superset (env : Env)
    (hne : ∀ q n l qs, env.plan q n l = .ok qs → qs.take n ≠ []) :
    ∀ d q b l u r, (deepResearch env q b d l u).1 = .ok r →
      (∀ s ∈ l, s ∈ r.learnings) ∧ (∀ s ∈ u, s ∈ r.visitedUrls) := by
  intro d
  induction d using Nat.strong_induction_on with
  | _ d ih =>
    have hbranch : ∀ q b l u sq p r',
        (runBranch env q b d l u sq p).1 = .ok r' →
        (∀ s ∈ l, s ∈ r'.learnings) ∧ (∀ s ∈ u, s ∈ r'.visitedUrls) := by
      intro q b l u sq p r' hok
      rw [runBranch] at hok
      cases hsr : env.search sq.query with
      | error e =>
        simp only [hsr, Except.ok.injEq] at hok
        subst hok
        exact ⟨fun s hs => hs, fun s hs => hs⟩
      | ok items =>
        simp only [hsr] at hok
        by_cases hcond : 0 < d - 1 ∧
            (processSerpResult env sq.query items b b).1.followUpQuestions ≠ []
        · rw [dif_pos hcond] at hok
          have hchild : (deepResearch env
              (nextQueryText sq.researchGoal
                (processSerpResult env sq.query items b b).1.followUpQuestions)
              (nextBreadth b) (d - 1)
              (l ++ (processSerpResult env sq.query items b b).1.learnings)
              (u ++ compactStrings (items.map SearchItem.url))).1 = .ok r' := hok
          have hmem := ih (d - 1) (by omega)
            (nextQueryText sq.researchGoal
              (processSerpResult env sq.query items b b).1.followUpQuestions)
            (nextBreadth b)
            (l ++ (processSerpResult env sq.query items b b).1.learnings)
            (u ++ compactStrings (items.map SearchItem.url)) r' hchild
          exact ⟨fun s hs => hmem.1 s (List.mem_append_left _ hs),
            fun s hs => hmem.2 s (List.mem_append_left _ hs)⟩
        · rw [dif_neg hcond] at hok
          have hok' : Except.ok (ResearchResult.mk
              (l ++ (processSerpResult env sq.query items b b).1.learnings)
              (u ++ compactStrings (items.map SearchItem.url)) q) = .ok r' := hok
          cases hok'
          exact ⟨fun s hs => List.mem_append_left _ hs,
            fun s hs => List.mem_append_left _ hs⟩
    intro q b l u r hr
    rw [deepResearch] at hr
    cases hpq : env.plan q b l with
    | error e =>
      simp only [generateSerpQueries, hpq, Except.map] at hr
      cases hr
    | ok qs =>
      simp only [generateSerpQueries, hpq, Except.map] at hr
      split at hr
      · cases hr
      · rename_i results heq
        have hbr : (runBranches env q b d l u (qs.take b)
            ⟨d, d, b, b, (qs.take b).length, 0,
              (qs.take b).head?.map SerpQuery.query⟩).1 = .ok results := heq
        have hr' : Except.ok (ResearchResult.mk
            (jsSetDedup (results.flatMap ResearchResult.learnings))
            (jsSetDedup (results.flatMap ResearchResult.visitedUrls)) q) = .ok r := hr
        cases hr'
        obtain ⟨shd, stl, hqs⟩ := List.exists_cons_of_ne_nil (hne q b l qs hpq)
        have hmemhead : shd ∈ qs.take b := by
          rw [hqs]
          exact List.mem_cons_self _ _
        obtain ⟨r0, hr0, hr0mem⟩ := runBranches_ok_mem env q b d l u (qs.take b) _
          ⟨d, d, b, b, (qs.take b).length, 0,
            (qs.take b).head?.map SerpQuery.query⟩ results hbr shd hmemhead
        constructor
        · intro s hs
          rw [mem_jsSetDedup]
          exact List.mem_flatMap.mpr ⟨r0, hr0mem, (hbranch q b l u shd _ r0 hr0).1 s hs⟩
        · intro s hs
          rw [mem_jsSetDedup]
          exact List.mem_flatMap.mpr ⟨r0, hr0mem, (hbranch q b l u shd _ r0 hr0).2 s hs⟩

/-- C3 (witness): with a planner guarded against empty results and a
failing fetcher, the accumulators `["a"]`/`["b"]` survive into the
result. -/
theorem c3_accumulator_superset_witness :
    "a" ∈ (ResearchResult.mk ["a"] ["b"] "q").learnings ∧
    "b" ∈ (ResearchResult.mk ["a"] ["b"] "q").visitedUrls := by
  have hne : ∀ q n l qs, envGuardedPlan.plan q n l = .ok qs → qs.take n ≠ [] := by
    intro q n l qs h
    rcases n with _ | n
    · simp [envGuardedPlan] at h
    · simp [envGuardedPlan] at h
      subst h
      simp
  have hr : (deepResearch envGuardedPlan "q" 1 1 ["a"] ["b"]).1 =
      .ok ⟨["a"], ["b"], "q"⟩ := by
    simp [deepResearch, runBranches, runBranch, generateSerpQueries, envGuardedPlan,
      Except.map, jsSetDedup]
  exact ⟨(c3_accumulator_superset envGuardedPlan hne 1 "q" 1 ["a"] ["b"] _ hr).1 "a"
      (by simp),
    (c3_accumulator_superset envGuardedPlan hne 1 "q" 1 ["a"] ["b"] _ hr).2 "b"
      (by simp)⟩

/-! ## Claim C7 -/

/-- Two planned queries; the fetch for `"bad"` times out while `"good"`
succeeds with one content item, one learning and no follow-ups. -/
def envMixedSearch : Env where
  plan := fun _ _ _ => .ok [⟨"bad", "g1"⟩, ⟨"good", "g2"⟩]
  search := fun q => if q = "bad" then .error (.timeout "Timeout")
    else .ok [⟨some "u", some "m"⟩]
  extract := fun _ _ _ _ => .ok ⟨["L"], []⟩
  trim := fun s _ => s


/-- C7 (counterexample): in the live engine the branch whose fetch fails
does not contribute the empty result `([], [])` — its catch handler
returns the accumulators the level was called with (here the non-empty
`["x"]`/`["v"]`). -/
theorem c7_failed_branch_contribution_cex :
    (runBranch envMixedSearch "q" 2 1 ["x"] ["v"] ⟨"bad", "g1"⟩
      ⟨1, 1, 2, 2, 2, 0, none⟩).1 = .ok ⟨["x"], ["v"], "q"⟩ ∧
    (ResearchResult.mk ["x"] ["v"] "q").learnings ≠ [] := by
  refine ⟨?_, by simp⟩
  simp [runBranch, envMixedSearch]

/-- C7 (amended): a fetch failure is caught inside the branch: the branch
settles successfully, contributing the accumulators passed into the level
(so nothing new; this is the empty result only when the accumulators are
empty) and does not abort the fan-out — whenever the level settles
successfully, every planned branch settled successfully and each branch's
learnings and URLs, including all successful siblings of the failed
branch, are contained in the merged result. -/
theorem c7_fault_isolation (env : Env) (q : String) (b d : Nat)
    (l u : List String) (sq : SerpQuery) (p : ResearchProgress)
    (e : FetchError) (planned : List SerpQuery) (r : ResearchResult)
    (hs : env.search sq.query = .error e)
    (hp : env.plan q b l = .ok planned)
    (hr : (deepResearch env q b d l u).1 = .ok r) :
    runBranch env q b d l u sq p =
      (.ok ⟨l, u, q⟩, [Event.searchCall sq.query], p) ∧
    (∀ sq' ∈ planned.take b, ∃ r',
      (runBranch env q b d l u sq' p).1 = .ok r' ∧
      (∀ s ∈ r'.learnings, s ∈ r.learnings) ∧
      (∀ s ∈ r'.visitedUrls, s ∈ r.visitedUrls)) := by
  refine ⟨?_, ?_⟩
  · rw [runBranch, hs]
  · rw [deepResearch] at hr
    simp only [generateSerpQueries, hp, Except.map] at hr
    split at hr
    · cases hr
    · rename_i results heq
      have hbr : (runBranches env q b d l u (planned.take b)
          ⟨d, d, b, b, (planned.take b).length, 0,
            (planned.take b).head?.map SerpQuery.query⟩).1 = .ok results := heq
      have hr2 : Except.ok (ResearchResult.mk
          (jsSetDedup (results.flatMap ResearchResult.learnings))
          (jsSetDedup (results.flatMap ResearchResult.visitedUrls)) q) = .ok r := hr
      cases hr2
      intro sq' hsq'
      obtain ⟨r', hok, hrmem⟩ := runBranches_ok_mem env q b d l u (planned.take b) _
        p results hbr sq' hsq'
      exact ⟨r', hok,
        fun s hs' => (mem_jsSetDedup _ _).mpr (List.mem_flatMap.mpr ⟨r', hrmem, hs'⟩),
        fun s hs' => (mem_jsSetDedup _ _).mpr (List.mem_flatMap.mpr ⟨r', hrmem, hs'⟩)⟩

/-- C7 (witness): with one failing and one succeeding query over the
accumulators `["x"]`/`["v"]`, the failed branch settles successfully with
exactly the accumulators, and the successful sibling's learning `"L"` and
URL `"u"` reach the merged result. -/
theorem c7_fault_isolation_witness :
    runBranch envMixedSearch "q" 2 1 ["x"] ["v"] ⟨"bad", "g1"⟩
        ⟨1, 1, 2, 2, 2, 0, none⟩ =
      (.ok ⟨["x"], ["v"], "q"⟩, [Event.searchCall "bad"],
        ⟨1, 1, 2, 2, 2, 0, none⟩) ∧
    "L" ∈ (ResearchResult.mk ["x", "L"] ["v", "u"] "q").learnings ∧
    "u" ∈ (ResearchResult.mk ["x", "L"] ["v", "u"] "q").visitedUrls := by
  have hr : (deepResearch envMixedSearch "q" 2 1 ["x"] ["v"]).1 =
      .ok ⟨["x", "L"], ["v", "u"], "q"⟩ := by
    simp [deepResearch, runBranches, runBranch, generateSerpQueries, processSerpResult,
      compactStrings, envMixedSearch, Except.map, jsSetDedup,
      show "m".isEmpty = false from rfl, show "u".isEmpty = false from rfl]
  have h := c7_fault_isolation envMixedSearch "q" 2 1 ["x"] ["v"] ⟨"bad", "g1"⟩
    ⟨1, 1, 2, 2, 2, 0, none⟩ (.timeout "Timeout")
    [⟨"bad", "g1"⟩, ⟨"good", "g2"⟩] ⟨["x", "L"], ["v", "u"], "q"⟩
    (by simp [envMixedSearch]) rfl hr
  have hgood : (runBranch envMixedSearch "q" 2 1 ["x"] ["v"] ⟨"good", "g2"⟩
      ⟨1, 1, 2, 2, 2, 0, none⟩).1 = .ok ⟨["x", "L"], ["v", "u"], "q"⟩ := by
    simp [runBranch, processSerpResult, compactStrings, envMixedSearch,
      show "m".isEmpty = false from rfl, show "u".isEmpty = false from rfl]
  obtain ⟨r', hok, hl, hu⟩ := h.2 ⟨"good", "g2"⟩ (by simp)
  rw [hgood] at hok
  cases hok
  exact ⟨h.1, hl "L" (by simp), hu "u" (by simp)⟩

/-! ## Claim C4 -/

theorem progressSnapshots_nil : progressSnapshots [] = [] := rfl

theorem progressSnapshots_append (a b : List Event) :
    progressSnapshots (a ++ b) = progressSnapshots a ++ progressSnapshots b := by
  simp [progressSnapshots]

theorem progressSnapshots_levelStart (d b : Nat) (t : List Event) :
    progressSnapshots (Event.levelStart d b :: t) = progressSnapshots t := by
  simp [progressSnapshots]

theorem progressSnapshots_searchCall (q : String) (t : List Event) :
    progressSnapshots (Event.searchCall q :: t) = progressSnapshots t := by
  simp [progressSnapshots]

theorem progressSnapshots_progress (p : ResearchProgress) (t : List Event) :
    progressSnapshots (Event.progress p :: t) = p :: progressSnapshots t := by
  simp [progressSnapshots]

theorem processSerpResult_no_snapshots (env : Env) (q : String)
    (items : List SearchItem) (n1 n2 : Nat) :
    progressSnapshots (processSerpResult env q items n1 n2).2 = [] := by
  rw [processSerpResult]
  split
  · rfl
  · split <;> rfl

theorem runBranch_final_progress (env : Env) (q : String) (b d : Nat)
    (l u : List String) (sq : SerpQuery) (p : ResearchProgress) :
    (runBranch env q b d l u sq p).2.2.totalQueries = p.totalQueries ∧
    p.completedQueries ≤ (runBranch env q b d l u sq p).2.2.completedQueries ∧
    (runBranch env q b d l u sq p).2.2.completedQueries ≤ p.completedQueries + 1 := by
  rw [runBranch]
  cases env.search sq.query with
  | error e => exact ⟨rfl, le_rfl, Nat.le_succ _⟩
  | ok items =>
    simp only
    split <;> exact ⟨rfl, Nat.le_succ _, le_rfl⟩

theorem runBranch_snapshots_le (env : Env) (q : String) (b d : Nat)
    (l u : List String) (sq : SerpQuery) (p : ResearchProgress)
    (hp : p.completedQueries + 1 ≤ p.totalQueries)
    (hchild : 0 < d - 1 → ∀ (q' : String) (b' : Nat) (l' u' : List String)
      (s : ResearchProgress),
      s ∈ progressSnapshots (deepResearch env q' b' (d - 1) l' u').2 →
      s.completedQueries ≤ s.totalQueries) :
    ∀ s ∈ progressSnapshots (runBranch env q b d l u sq p).2.1,
      s.completedQueries ≤ s.totalQueries := by
  rw [runBranch]
  cases env.search sq.query with
  | error e =>
    intro s hs
    simp [progressSnapshots] at hs
  | ok items =>
    simp only
    by_cases hcond : 0 < d - 1 ∧
        (processSerpResult env sq.query items b b).1.followUpQuestions ≠ []
    · rw [dif_pos hcond]
      intro s hs
      simp only [progressSnapshots_searchCall, progressSnapshots_append,
        processSerpResult_no_snapshots, progressSnapshots_progress,
        progressSnapshots_nil, List.nil_append, List.mem_cons,
        List.mem_append, List.not_mem_nil, or_false, false_or] at hs
      rcases hs with rfl | hs
      · simpa using hp
      · exact hchild hcond.1 _ _ _ _ s hs
    · rw [dif_neg hcond]
      intro s hs
      simp only [progressSnapshots_searchCall, progressSnapshots_append,
        processSerpResult_no_snapshots, progressSnapshots_progress,
        progressSnapshots_nil, List.nil_append, List.mem_cons,
        List.not_mem_nil, or_false, false_or] at hs
      subst hs
      simpa using hp

theorem runBranches_final_progress (env : Env) (q : String) (b d : Nat)
    (l u : List String) :
    ∀ (qs : List SerpQuery) (p : ResearchProgress),
      (runBranches env q b d l u qs p).2.2.totalQueries = p.totalQueries ∧
      p.completedQueries ≤ (runBranches env q b d l u qs p).2.2.completedQueries ∧
      (runBranches env q b d l u qs p).2.2.completedQueries ≤
        p.completedQueries + qs.length := by
  intro qs
  induction qs with
  | nil => intro p; rw [runBranches]; exact ⟨rfl, le_rfl, by simp⟩
  | cons sq rest ih =>
    intro p
    rw [runBranches]
    obtain ⟨h1, h2, h3⟩ :=
      runBranch_final_progress env q b d l u sq p
    obtain ⟨g1, g2, g3⟩ := ih (runBranch env q b d l u sq p).2.2
    cases hb : (runBranch env q b d l u sq p).1 with
    | error e =>
      simp only [hb]
      exact ⟨h1, h2, by simp only [List.length_cons]; omega⟩
    | ok r =>
      simp only [hb]
      refine ⟨by rw [g1, h1], by omega, ?_⟩
      simp only [List.length_cons]
      omega

theorem runBranches_snapshots_le (env : Env) (q : String) (b d : Nat)
    (l u : List String)
    (hchild : 0 < d - 1 → ∀ (q' : String) (b' : Nat) (l' u' : List String)
      (s : ResearchProgress),
      s ∈ progressSnapshots (deepResearch env q' b' (d - 1) l' u').2 →
      s.completedQueries ≤ s.totalQueries) :
    ∀ (qs : List SerpQuery) (p : ResearchProgress),
      p.completedQueries + qs.length ≤ p.totalQueries →
      ∀ s ∈ progressSnapshots (runBranches env q b d l u qs p).2.1,
        s.completedQueries ≤ s.totalQueries := by
  intro qs
  induction qs with
  | nil =>
    intro p hp s hs
    rw [runBranches] at hs
    simp [progressSnapshots] at hs
  | cons sq rest ih =>
    intro p hp s hs
    rw [runBranches] at hs
    cases hb : (runBranch env q b d l u sq p).1 with
    | error e =>
      simp only [hb] at hs
      exact runBranch_snapshots_le env q b d l u sq p
        (by simp only [List.length_cons] at hp; omega) hchild s hs
    | ok r =>
      simp only [hb, progressSnapshots_append] at hs
      rcases List.mem_append.mp hs with hs | hs
      · exact runBranch_snapshots_le env q b d l u sq p
          (by simp only [List.length_cons] at hp; omega) hchild s hs
      · obtain ⟨h1, h2, h3⟩ := runBranch_final_progress env q b d l u sq p
        exact ih (runBranch env q b d l u sq p).2.2
          (by rw [h1]; simp only [List.length_cons] at hp; omega) s hs

theorem deepResearch_snapshots_le :
    ∀ (d : Nat) (env : Env) (q : String) (b : Nat) (l u : List String),
      ∀ s ∈ progressSnapshots (deepResearch env q b d l u).2,
        s.completedQueries ≤ s.totalQueries := by
  intro d
  induction d using Nat.strong_induction_on with
  | _ d ih =>
    intro env q b l u s hs
    cases hg : generateSerpQueries env q b l with
    | error e =>
      rw [deepResearch] at hs
      rw [hg] at hs
      simp [progressSnapshots] at hs
    | ok qs =>
      rw [deepResearch_events_ok env q b d l u qs hg] at hs
      rw [progressSnapshots_levelStart, progressSnapshots_progress] at hs
      rcases List.mem_cons.mp hs with rfl | hs
      · simp
      · exact runBranches_snapshots_le env q b d l u
          (fun hd2 => ih (d - 1) (by omega) env) qs _ (by simp) s hs

/-- C4 (amended): every progress snapshot delivered to the sink anywhere in
the invocation tree satisfies `completedQueries ≤ totalQueries`, and within
one activation the threaded progress counter is non-decreasing (each branch
adds at most one).  The delivered sequence across the whole tree, however,
is not non-decreasing — each recursive activation creates a fresh progress
object restarting at 0, as the counterexample shows. -/
theorem c4_progress_bounds :
    (∀ (env : Env) (q : String) (b d : Nat) (l u : List String),
      ∀ s ∈ progressSnapshots (deepResearch env q b d l u).2,
        s.completedQueries ≤ s.totalQueries) ∧
    (∀ (env : Env) (q : String) (b d : Nat) (l u : List String)
        (qs : List SerpQuery) (p : ResearchProgress),
      p.completedQueries ≤ (runBranches env q b d l u qs p).2.2.completedQueries ∧
      (runBranches env q b d l u qs p).2.2.completedQueries ≤
        p.completedQueries + qs.length) :=
  ⟨fun env q b d l u => deepResearch_snapshots_le d env q b l u,
   fun env q b d l u qs p =>
     ⟨(runBranches_final_progress env q b d l u qs p).2.1,
      (runBranches_final_progress env q b d l u qs p).2.2⟩⟩

/-- C4 (witness): the single snapshot of a one-query fetch-failing run is
within bounds, and an empty fan-out leaves the counter unchanged. -/
theorem c4_progress_bounds_witness :
    (ResearchProgress.mk 1 1 1 1 1 0 (some "s")).completedQueries ≤
      (ResearchProgress.mk 1 1 1 1 1 0 (some "s")).totalQueries ∧
    (ResearchProgress.mk 1 1 1 1 1 0 (some "s")).completedQueries ≤
      (runBranches envSearchFails "q" 1 1 [] [] []
        ⟨1, 1, 1, 1, 1, 0, some "s"⟩).2.2.completedQueries := by
  constructor
  · exact c4_progress_bounds.1 envSearchFails "q" 1 1 [] [] ⟨1, 1, 1, 1, 1, 0, some "s"⟩ (by
      simp [deepResearch, runBranches, runBranch, generateSerpQueries, envSearchFails,
        Except.map, progressSnapshots])
  · exact (c4_progress_bounds.2 envSearchFails "q" 1 1 [] [] [] ⟨1, 1, 1, 1, 1, 0, some "s"⟩).1
